import Mathlib

/-!
Verification of the suiscan data-fetch pipeline (src/data/fetcher.py).

The repository builds SQL query strings from typed parameters, submits them to
a remote tabular-query service (BigQuery), materializes the columnar result as
a polars DataFrame, and appends derived columns.  This file gives a shallow
embedding of that pipeline:

* Python floats/fractional day counts are modelled as rationals (`ℚ`);
  Python `int(...)` is truncation toward zero (`pyInt`).
* The remote dataset is a `Dataset`: a list of transaction rows and a list of
  object (balance) rows, mirroring the two tables the queries target.
* Each fixed query shape is embedded as a function on `Dataset`:
  `WHERE timestamp_ms >= cutoff` becomes a filter, `ORDER BY ... DESC` a
  stable sort by the corresponding key, `LIMIT n` a `take`, `GROUP BY` a
  partition on the bucketing key.  A query whose evaluation would fail
  remotely (a non-integer string under `CAST(... AS INT64)`) yields `none`.
* SQL `NULL` booleans are `Option Bool`; `CAST(s AS INT64)` is `parseInt64`,
  which enforces the signed 64-bit range.
* polars derived columns are `map`s appending fields to row structures.
  The polars `Datetime(ms)` value decoded by `from_epoch` is represented by
  its physical millisecond count.  Float division of integer columns is
  modelled as exact division in `ℚ`; `0 / 0` (a float `NaN`) is the marker
  `none` in `Option ℚ`.
* The query *strings* built by `get_wallet_balances` from an address list are
  modelled at the character level (`where_clause`), with Python strings as
  `List Char` and `str.join` as `pyJoin`.
-/

namespace Suiscan

/-- Python `int(x)` on a rational: truncation toward zero.  Since `x.den > 0`,
`Int.tdiv x.num x.den` is exactly the integer part of `x` rounded toward 0. -/
def pyInt (x : ℚ) : ℤ := x.num.tdiv x.den

/-- The cutoff computed by `get_recent_transactions` and
`get_transaction_summary`:
`cutoff_date = datetime.now() - timedelta(days=days)` followed by
`cutoff_timestamp = int(cutoff_date.timestamp() * 1000)`.
`now` is the clock reading in seconds since the epoch, `days` the window
length in days (fractional allowed), and the result is in milliseconds. -/
def cutoff_ms (now days : ℚ) : ℤ := pyInt ((now - days * 86400) * 1000)

/-- Numeric value of a digit string (assuming all characters are digits). -/
def digitsVal (l : List Char) : ℕ := l.foldl (fun n c => 10 * n + (c.toNat - 48)) 0

/-- Parse a non-empty all-digit character list. -/
def parseDigits (l : List Char) : Option ℕ :=
  if l ≠ [] ∧ l.all Char.isDigit then some (digitsVal l) else none

/-- Parse an optionally signed integer literal string. -/
def parseIntStr (s : String) : Option ℤ :=
  match s.data with
  | '-' :: rest => (parseDigits rest).map (fun n => -(n : ℤ))
  | '+' :: rest => (parseDigits rest).map (fun n => (n : ℤ))
  | l => (parseDigits l).map (fun n => (n : ℤ))

/-- SQL `CAST(s AS INT64)` / polars `cast(pl.Int64)` on a string column entry:
parse as an integer and enforce the signed 64-bit range; `none` is the
error/rejection outcome. -/
def parseInt64 (s : String) : Option ℤ :=
  (parseIntStr s).bind (fun x => if -(2 ^ 63) ≤ x ∧ x < 2 ^ 63 then some x else none)

/-- A row of the remote `transactions` table (column set fixed by the query in
`get_recent_transactions`).  `success` is a nullable SQL boolean. -/
structure TxRow where
  transaction_digest : String
  timestamp_ms : ℤ
  sender : String
  gas_used : String
  gas_price : String
  success : Option Bool
  effects_status : String
  checkpoint_sequence_number : ℤ
  deriving DecidableEq

/-- A row of the remote `objects` table (columns used by
`get_wallet_balances`). -/
structure BalRow where
  owner : String
  coin_type : String
  balance : String
  object_id : String
  deriving DecidableEq

/-- The remote dataset `bigquery-public-data.crypto_sui_mainnet_us`:
the two tables the fetcher queries. -/
structure Dataset where
  transactions : List TxRow
  objects : List BalRow
  deriving DecidableEq

/-- Rows selected by `WHERE timestamp_ms >= cutoff`. -/
def txWindow (db : Dataset) (cutoff : ℤ) : List TxRow :=
  db.transactions.filter (fun r => decide (cutoff ≤ r.timestamp_ms))

/-- The `ORDER BY timestamp_ms DESC` comparison on transaction rows. -/
def tsDesc (a b : TxRow) : Prop := b.timestamp_ms ≤ a.timestamp_ms

instance : DecidableRel tsDesc := fun a b => Int.decLe b.timestamp_ms a.timestamp_ms

instance : IsTotal TxRow tsDesc := ⟨fun a b => le_total b.timestamp_ms a.timestamp_ms⟩

instance : IsTrans TxRow tsDesc := ⟨fun _ _ _ hab hbc => le_trans hbc hab⟩

/-- The transactions query issued by `get_recent_transactions`:
`WHERE timestamp_ms >= cutoff ORDER BY timestamp_ms DESC LIMIT limit`. -/
def txQuery (db : Dataset) (cutoff : ℤ) (limit : ℕ) : List TxRow :=
  (List.insertionSort tsDesc (txWindow db cutoff)).take limit

/-- A materialized transaction row after the transform step: the original
columns plus the decoded `timestamp` column.  The decoded polars
`Datetime(ms)` value is represented by its physical millisecond count. -/
structure TxOut extends TxRow where
  timestamp : ℤ
  deriving DecidableEq

/-- The transform step of `get_recent_transactions`:
`with_columns(pl.from_epoch(pl.col("timestamp_ms"), time_unit="ms"))`
appends the decoded timestamp and keeps every original column. -/
def addTimestamp (r : TxRow) : TxOut := ⟨r, r.timestamp_ms⟩

/-- `SuiDataFetcher.get_recent_transactions(days, limit)` run at clock
reading `now` (seconds since the epoch) against dataset `db`. -/
def get_recent_transactions (db : Dataset) (now days : ℚ) (limit : ℕ) : List TxOut :=
  (txQuery db (cutoff_ms now days) limit).map addTimestamp

/-- The single-quote character, written by code point to keep the SQL quoting
explicit. -/
def sq : Char := Char.ofNat 39

/-- The separator `Python "', '"` used by `"', '".join(addresses)`. -/
def addrSep : List Char := [sq, ',', ' ', sq]

/-- The fixed text preceding the interpolated address list in
`WHERE owner IN ('...')`. -/
def clausePre : List Char := "WHERE owner IN (".toList ++ [sq]

/-- The fixed text following the interpolated address list. -/
def clauseSuf : List Char := [sq, ')']

/-- The fixed clause used when no addresses are supplied:
`WHERE coin_type = '0x2::sui::SUI'`. -/
def coinClause : List Char :=
  "WHERE coin_type = ".toList ++ [sq] ++ "0x2::sui::SUI".toList ++ [sq]

/-- Python `sep.join(xs)` at the character level. -/
def pyJoin (sep : List Char) : List (List Char) → List Char
  | [] => []
  | [a] => a
  | a :: b :: rest => a ++ (sep ++ pyJoin sep (b :: rest))

/-- The `where_clause` string built by `get_wallet_balances`.  Python
truthiness: an empty list takes the `else` branch exactly like `None`. -/
def where_clause (addresses : List (List Char)) : List Char :=
  if addresses.isEmpty then coinClause
  else clausePre ++ (pyJoin addrSep addresses ++ clauseSuf)

/-- Prepend a character to the first piece of a split (helper for
`splitAddrs`). -/
def consHead (c : Char) : List (List Char) → List (List Char)
  | [] => [[c]]
  | p :: ps => (c :: p) :: ps

/-- Split a character list on the literal separator `', '` (quote, comma,
space, quote), scanning left to right.  Applied to the interpolated body of a
generated `IN ('...')` clause it recovers the quoted literals. -/
def splitAddrs : List Char → List (List Char)
  | [] => [[]]
  | a :: b :: c :: d :: rest =>
    if a = sq ∧ b = ',' ∧ c = ' ' ∧ d = sq then [] :: splitAddrs rest
    else consHead a (splitAddrs (b :: c :: d :: rest))
  | a :: rest => consHead a (splitAddrs rest)

/-- Decode a generated owner filter clause back into the list of address
literals it quotes: strip the fixed `WHERE owner IN ('` and `')` delimiters
and split the body on `', '`.  This is how a SQL reader lexes the clause when
every literal is quote-free. -/
def ownersOf (cl : List Char) : Option (List (List Char)) :=
  if cl.take clausePre.length = clausePre ∧
      (cl.drop clausePre.length).drop
        ((cl.drop clausePre.length).length - clauseSuf.length) = clauseSuf then
    some (splitAddrs ((cl.drop clausePre.length).take
      ((cl.drop clausePre.length).length - clauseSuf.length)))
  else none

/-- Python truthiness of the `addresses` argument (`None` or `[]` is falsy). -/
def pyTruthy (addresses : Option (List String)) : Bool :=
  match addresses with
  | none => false
  | some l => !l.isEmpty

/-- Owner filter denoted by the generated `WHERE owner IN (...)` clause for a
well-formed (quote-free) address list: case-sensitive exact set membership,
per the remote service's evaluation of the clause. -/
def ownerFilter (addresses : List String) (r : BalRow) : Bool :=
  decide (r.owner ∈ addresses)

/-- Filter denoted by `WHERE coin_type = '0x2::sui::SUI'`. -/
def coinFilter (r : BalRow) : Bool :=
  decide (r.coin_type = "0x2::sui::SUI")

/-- The row filter selected by `get_wallet_balances`: Python `if addresses:`
chooses the owner filter only for a non-`None`, non-empty list. -/
def balFilter (addresses : Option (List String)) : BalRow → Bool :=
  match addresses with
  | some l => if l.isEmpty then coinFilter else ownerFilter l
  | none => coinFilter

/-- The `CAST(balance AS INT64)` sort key of a balance row (defaulted; the
query only returns rows on which the cast succeeded). -/
def parsedBal (r : BalRow) : ℤ := (parseInt64 r.balance).getD 0

/-- The `ORDER BY CAST(balance AS INT64) DESC` comparison. -/
def balDesc (a b : BalRow) : Prop := parsedBal b ≤ parsedBal a

instance : DecidableRel balDesc := fun a b => Int.decLe (parsedBal b) (parsedBal a)

instance : IsTotal BalRow balDesc := ⟨fun a b => le_total (parsedBal b) (parsedBal a)⟩

instance : IsTrans BalRow balDesc := ⟨fun _ _ _ hab hbc => le_trans hbc hab⟩

/-- The objects query issued by `get_wallet_balances`: filter per the where
clause, `ORDER BY CAST(balance AS INT64) DESC`, `LIMIT limit`.  The query is
rejected (`none`) if some selected balance string is not a valid INT64. -/
def objectsQuery (db : Dataset) (addresses : Option (List String)) (limit : ℕ) :
    Option (List BalRow) :=
  let rows := db.objects.filter (balFilter addresses)
  if rows.all (fun r => (parseInt64 r.balance).isSome) then
    some ((List.insertionSort balDesc rows).take limit)
  else none

/-- A materialized balance row after the transform step. -/
structure BalOut extends BalRow where
  balance_raw : ℤ
  balance_sui : ℚ
  deriving DecidableEq

/-- The transform step of `get_wallet_balances`:
`balance_raw = cast(balance, Int64)` and
`balance_sui = cast(balance, Int64) / 1_000_000_000` (polars float division,
modelled exactly in `ℚ`). -/
def addBalanceCols (r : BalRow) : BalOut :=
  ⟨r, (parseInt64 r.balance).getD 0, (((parseInt64 r.balance).getD 0 : ℤ) : ℚ) / 1000000000⟩

/-- `SuiDataFetcher.get_wallet_balances(addresses, limit)` against dataset
`db`; `none` when the remote query is rejected. -/
def get_wallet_balances (db : Dataset) (addresses : Option (List String)) (limit : ℕ) :
    Option (List BalOut) :=
  (objectsQuery db addresses limit).map (List.map addBalanceCols)

/-- `DATE(TIMESTAMP_MILLIS(ts))`: the UTC day bucket of a millisecond
timestamp, as a day number (floor division). -/
def dateOf (ts : ℤ) : ℤ := ts.fdiv 86400000

/-- The `ORDER BY date DESC` comparison on day numbers. -/
def descZ (a b : ℤ) : Prop := b ≤ a

instance : DecidableRel descZ := fun a b => Int.decLe b a

instance : IsTotal ℤ descZ := ⟨fun a b => le_total b a⟩

instance : IsTrans ℤ descZ := ⟨fun _ _ _ hab hbc => le_trans hbc hab⟩

/-- A row of the `GROUP BY DATE(...)` summary query result. -/
structure SummaryQRow where
  date : ℤ
  transaction_count : ℕ
  unique_senders : ℕ
  avg_gas_used : ℚ
  successful_txns : ℕ
  failed_txns : ℕ
  deriving DecidableEq

/-- The aggregates computed for one day bucket `d` of the window rows:
`COUNT(*)`, `COUNT(DISTINCT sender)`, `AVG(CAST(gas_used AS INT64))`,
`SUM(CASE WHEN success = true ...)`, `SUM(CASE WHEN success = false ...)`.
A `NULL` success flag counts toward neither sum. -/
def summaryRowFor (rows : List TxRow) (d : ℤ) : SummaryQRow :=
  let g := rows.filter (fun r => decide (dateOf r.timestamp_ms = d))
  { date := d
    transaction_count := g.length
    unique_senders := ((g.map (fun r => r.sender)).dedup).length
    avg_gas_used :=
      ((g.map (fun r => (((parseInt64 r.gas_used).getD 0 : ℤ) : ℚ))).sum) / (g.length : ℚ)
    successful_txns := g.countP (fun r => decide (r.success = some true))
    failed_txns := g.countP (fun r => decide (r.success = some false)) }

/-- The summary query issued by `get_transaction_summary`: window filter,
group by day bucket, one aggregate row per distinct bucket,
`ORDER BY date DESC`.  Rejected (`none`) if some selected `gas_used` string
is not a valid INT64. -/
def summaryQuery (db : Dataset) (cutoff : ℤ) : Option (List SummaryQRow) :=
  let rows := txWindow db cutoff
  if rows.all (fun r => (parseInt64 r.gas_used).isSome) then
    some ((List.insertionSort descZ ((rows.map (fun r => dateOf r.timestamp_ms)).dedup)).map
      (summaryRowFor rows))
  else none

/-- A summary row after the transform step appending `success_rate_pct`. -/
structure SummaryRow extends SummaryQRow where
  success_rate_pct : Option ℚ
  deriving DecidableEq

/-- The transform step of `get_transaction_summary`:
`success_rate_pct = successful_txns / transaction_count * 100` as polars
float division.  With a zero denominator polars produces the float `NaN`
(no error is raised); that non-numeric outcome is the marker `none`. -/
def addSuccessRate (r : SummaryQRow) : SummaryRow :=
  ⟨r, if r.transaction_count = 0 then none
      else some ((r.successful_txns : ℚ) / (r.transaction_count : ℚ) * 100)⟩

/-- `SuiDataFetcher.get_transaction_summary(days)` run at clock reading `now`
against dataset `db`; `none` when the remote query is rejected. -/
def get_transaction_summary (db : Dataset) (now days : ℚ) : Option (List SummaryRow) :=
  (summaryQuery db (cutoff_ms now days)).map (List.map addSuccessRate)

/-- Concrete transaction row used in witnesses: one successful transaction at
1,000,000 ms after the epoch. -/
def tx0 : TxRow := ⟨"d0", 1000000, "alice", "100", "1", some true, "success", 1⟩

/-- Witness dataset with a single transaction row. -/
def db1 : Dataset := ⟨[tx0], []⟩

/-- Concrete balance row used in witnesses: raw balance `"5000000000"`. -/
def bal0 : BalRow := ⟨"0xabc", "0x2::sui::SUI", "5000000000", "obj0"⟩

/-- Witness dataset with a single object row. -/
def db2 : Dataset := ⟨[], [bal0]⟩

/-- The empty remote dataset. -/
def dbEmpty : Dataset := ⟨[], []⟩

/-- The address string `a', 'b` containing quote metacharacters, as used in
the injection counterexample. -/
def addrA : List Char := ['a'] ++ addrSep ++ ['b']

/-- The transformed transaction row produced for `tx0`. -/
def wtx : TxOut := addTimestamp tx0

/-- The summary row produced for `db1` over a window containing `tx0`. -/
def wsum : SummaryRow := addSuccessRate (summaryRowFor [tx0] 0)

/-- Python truncation agrees with the floor on nonnegative rationals. -/
theorem pyInt_eq_floor {x : ℚ} (h : 0 ≤ x) : pyInt x = ⌊x⌋ := by
  rw [pyInt, Int.tdiv_eq_ediv (Rat.num_nonneg.mpr h) (Int.ofNat_nonneg x.den), Rat.floor_def]

/-- Python truncation agrees with the ceiling on nonpositive rationals. -/
theorem pyInt_eq_ceil {x : ℚ} (h : x ≤ 0) : pyInt x = ⌈x⌉ := by
  have h1 : pyInt (-x) = ⌊-x⌋ := pyInt_eq_floor (by linarith)
  have h2 : pyInt (-x) = -pyInt x := by
    rw [pyInt, pyInt, Rat.neg_num, Rat.neg_den, Int.neg_tdiv]
  rw [Int.floor_neg] at h1
  omega

/-- Truncation toward zero is monotone. -/
theorem pyInt_mono {x y : ℚ} (h : x ≤ y) : pyInt x ≤ pyInt y := by
  rcases le_or_lt 0 x with hx | hx
  · rw [pyInt_eq_floor hx, pyInt_eq_floor (le_trans hx h)]
    exact Int.floor_mono h
  · rcases le_or_lt 0 y with hy | hy
    · calc pyInt x = ⌈x⌉ := pyInt_eq_ceil hx.le
        _ ≤ 0 := Int.ceil_le.mpr (by exact_mod_cast hx.le)
        _ ≤ ⌊y⌋ := Int.floor_nonneg.mpr hy
        _ = pyInt y := (pyInt_eq_floor hy).symm
    · rw [pyInt_eq_ceil hx.le, pyInt_eq_ceil hy.le]
      exact Int.ceil_mono h

/-- Truncation is the identity on integers. -/
theorem pyInt_intCast (z : ℤ) : pyInt (z : ℚ) = z := by
  rw [pyInt, Rat.num_intCast, Rat.den_intCast]
  exact Int.tdiv_one z

/-- The cutoff at integer clock and day arguments, in closed form. -/
theorem cutoff_ms_int (n d : ℤ) : cutoff_ms (n : ℚ) (d : ℚ) = (n - d * 86400) * 1000 := by
  rw [cutoff_ms, show ((n : ℚ) - (d : ℚ) * 86400) * 1000 = (((n - d * 86400) * 1000 : ℤ) : ℚ) by
    push_cast; ring]
  exact pyInt_intCast _

/-- C1, counterexample: the claim states the cutoff equals
`floor((now - days) * 86400000)` for every `days ≥ 0`, obtained by truncation.
Python `int()` truncates toward zero, which differs from the floor once the
cutoff instant lies before the epoch: at clock reading
`now = 1760227200.0005 s` with `days = 25000`, the code computes
`-399772799999` while the floor is `-399772800000`. -/
theorem C1_counterexample : cutoff_ms (1760227200 + 1/2000) 25000 ≠
    ⌊((1760227200 + 1/2000 : ℚ) - 25000 * 86400) * 1000⌋ := by
  have h1 : cutoff_ms (1760227200 + 1/2000) 25000 = -399772799999 := by
    with_unfolding_all rfl
  have h2 : ⌊((1760227200 + 1/2000 : ℚ) - 25000 * 86400) * 1000⌋ = -399772800000 := by
    rw [Rat.floor_def]
    with_unfolding_all rfl
  rw [h1, h2]
  decide

/-- C1, amended: for `days ≥ 0` whose cutoff does not precede the epoch
(`days * 86400 ≤ now`, always the case for realistic windows), the cutoff
timestamp used by `get_recent_transactions` and `get_transaction_summary`
equals `floor((now - days) * 86400000)` milliseconds, and the cutoff is
monotonically nonincreasing as `days` increases (for all day values, the
truncation being monotone). -/
theorem C1_cutoff_floor_antitone (now days d1 d2 : ℚ) (hd : 0 ≤ days)
    (hpre : days * 86400 ≤ now) (h12 : d1 ≤ d2) :
    cutoff_ms now days = ⌊(now - days * 86400) * 1000⌋ ∧
      cutoff_ms now d2 ≤ cutoff_ms now d1 := by
  refine ⟨pyInt_eq_floor (by nlinarith), pyInt_mono (by nlinarith)⟩

/-- C1, witness: the amended theorem instantiated at `now = 1 s`,
`days = 0`, `d1 = 0`, `d2 = 1`. -/
theorem C1_witness : (0 : ℚ) ≤ 0 ∧ (0 : ℚ) * 86400 ≤ 1 ∧ (0 : ℚ) ≤ 1 ∧
    (cutoff_ms 1 0 = ⌊((1 : ℚ) - 0 * 86400) * 1000⌋ ∧ cutoff_ms 1 1 ≤ cutoff_ms 1 0) :=
  ⟨le_refl 0, by norm_num, by norm_num,
    C1_cutoff_floor_antitone 1 0 0 1 (le_refl 0) (by norm_num) (by norm_num)⟩

/-- C2, counterexample: the claim states two calls with identical parameters
against an unchanged dataset return identical tables.  The clock is a hidden
input: on a dataset containing one transaction at 1,000,000 ms, identical
parameters `days = 0, limit = 10` give a one-row table at clock reading
500 s and an empty table at clock reading 2000 s. -/
theorem C2_counterexample :
    get_recent_transactions db1 500 0 10 ≠ get_recent_transactions db1 2000 0 10 :=
  of_decide_eq_true (by with_unfolding_all rfl)

/-- C2, amended: each operation is a pure function of the dataset, the clock
reading and its parameters — two calls with identical parameters, an
unchanged remote dataset and an identical clock reading return identical
tables (same values in every cell), with no other state. -/
theorem C2_deterministic (db : Dataset) (now days : ℚ) (limit : ℕ)
    (addresses : Option (List String)) :
    get_recent_transactions db now days limit = get_recent_transactions db now days limit ∧
      get_wallet_balances db addresses limit = get_wallet_balances db addresses limit ∧
        get_transaction_summary db now days = get_transaction_summary db now days :=
  ⟨rfl, rfl, rfl⟩

/-- A character distinct from the quote never starts the `', '` separator, so
the splitter passes over it into the current piece. -/
theorem splitAddrs_cons_of_ne {c : Char} (hc : ¬ c = sq) (l : List Char) :
    splitAddrs (c :: l) = consHead c (splitAddrs l) := by
  rcases l with _ | ⟨b, _ | ⟨c2, _ | ⟨d, rest⟩⟩⟩
  · rfl
  · rfl
  · rfl
  · simp [splitAddrs, hc]

/-- The splitter consumes a leading separator. -/
theorem splitAddrs_sep_append (t : List Char) :
    splitAddrs (addrSep ++ t) = [] :: splitAddrs t := by
  simp [addrSep, splitAddrs]

/-- A quote-free string is a single piece. -/
theorem splitAddrs_noquote {a : List Char} (h : sq ∉ a) : splitAddrs a = [a] := by
  induction a with
  | nil => rfl
  | cons c t ih =>
    have hc : ¬ c = sq := fun e => h (by rw [← e]; exact List.mem_cons_self c t)
    rw [splitAddrs_cons_of_ne hc, ih (fun hm => h (List.mem_cons_of_mem c hm))]
    rfl

/-- The splitter peels one quote-free piece before a separator. -/
theorem splitAddrs_append {a : List Char} (h : sq ∉ a) (t : List Char) :
    splitAddrs (a ++ (addrSep ++ t)) = a :: splitAddrs t := by
  induction a with
  | nil => simpa using splitAddrs_sep_append t
  | cons c t' ih =>
    have hc : ¬ c = sq := fun e => h (by rw [← e]; exact List.mem_cons_self c t')
    rw [List.cons_append, splitAddrs_cons_of_ne hc, ih (fun hm => h (List.mem_cons_of_mem c hm))]
    rfl

/-- Splitting on `', '` inverts Python `"', '".join` on non-empty lists of
quote-free strings. -/
theorem pyJoin_roundtrip (as : List (List Char)) (hne : as ≠ []) (hq : ∀ a ∈ as, sq ∉ a) :
    splitAddrs (pyJoin addrSep as) = as := by
  induction as with
  | nil => exact absurd rfl hne
  | cons a rest ih =>
    cases rest with
    | nil => exact splitAddrs_noquote (hq a (List.mem_cons_self a []))
    | cons b r2 =>
      rw [show pyJoin addrSep (a :: b :: r2) = a ++ (addrSep ++ pyJoin addrSep (b :: r2)) from rfl,
        splitAddrs_append (hq a (List.mem_cons_self a _)) _,
        ih (by simp) (fun x hx => hq x (List.mem_cons_of_mem a hx))]

/-- C3, counterexample: the claim states every non-empty address list yields
a query filtering to exactly the supplied set, with no address able to alter
the query structure.  Addresses are interpolated unescaped, so the one-element
list containing the string `a', 'b` produces the identical clause as the
two-element list `a`, `b` — one query string cannot filter to exactly both
sets, and the embedded quotes changed the structure of the literal list. -/
theorem C3_counterexample : where_clause [addrA] = where_clause [['a'], ['b']] ∧
    [addrA] ≠ [['a'], ['b']] ∧ addrA ∉ [['a'], ['b']] ∧ ['a'] ∉ [addrA] := by
  refine ⟨?_, ?_, ?_, ?_⟩ <;> decide

/-- C3, amended: for every non-empty address list in which no address
contains the single-quote character, the generated clause is exactly
`WHERE owner IN ('a1', ..., 'an')` and the supplied address list is recovered
verbatim by lexing the clause — the filter denotes case-sensitive exact set
membership in the supplied addresses and no such address value can alter the
query structure.  (Addresses containing a quote break this, per the
counterexample; the spec itself flags the unsanitized interpolation in §9.) -/
theorem C3_injection_safe_quotefree (as : List (List Char)) (hne : as ≠ [])
    (hq : ∀ a ∈ as, sq ∉ a) : ownersOf (where_clause as) = some as := by
  have hemp : as.isEmpty = false := by
    cases as with
    | nil => exact absurd rfl hne
    | cons a t => rfl
  rw [where_clause, if_neg (by simp [hemp])]
  have hdrop : (clausePre ++ (pyJoin addrSep as ++ clauseSuf)).drop clausePre.length
      = pyJoin addrSep as ++ clauseSuf := List.drop_left _ _
  have htake : (clausePre ++ (pyJoin addrSep as ++ clauseSuf)).take clausePre.length
      = clausePre := List.take_left _ _
  have hlen : (pyJoin addrSep as ++ clauseSuf).length - clauseSuf.length
      = (pyJoin addrSep as).length := by simp
  rw [ownersOf, if_pos]
  · rw [hdrop, hlen, List.take_left, pyJoin_roundtrip as hne hq]
  · refine ⟨htake, ?_⟩
    rw [hdrop, hlen]
    exact List.drop_left _ _

/-- C3, witness: the amended theorem instantiated at the quote-free address
list `["a", "b"]`. -/
theorem C3_witness : (([['a'], ['b']] : List (List Char)) ≠ []) ∧
    (∀ a ∈ ([['a'], ['b']] : List (List Char)), sq ∉ a) ∧
      ownersOf (where_clause [['a'], ['b']]) = some [['a'], ['b']] :=
  ⟨by decide, by decide, C3_injection_safe_quotefree _ (by decide) (by decide)⟩

/-- A successful `CAST(... AS INT64)` lands in the signed 64-bit range. -/
theorem parseInt64_bounds {s : String} {x : ℤ} (h : parseInt64 s = some x) :
    -(2 ^ 63) ≤ x ∧ x < 2 ^ 63 := by
  rw [parseInt64, Option.bind_eq_some] at h
  obtain ⟨y, _, hif⟩ := h
  by_cases hc : -(2 ^ 63) ≤ y ∧ y < 2 ^ 63
  · rw [if_pos hc] at hif
    cases hif
    exact hc
  · rw [if_neg hc] at hif
    cases hif

/-- Shape of a successful objects query: every selected balance parses and
the result is the sorted, truncated filter of the objects table. -/
theorem objectsQuery_eq {db : Dataset} {addresses : Option (List String)} {limit : ℕ}
    {l₀ : List BalRow} (h : objectsQuery db addresses limit = some l₀) :
    (db.objects.filter (balFilter addresses)).all
        (fun r => (parseInt64 r.balance).isSome) = true ∧
      l₀ = (List.insertionSort balDesc (db.objects.filter (balFilter addresses))).take limit := by
  by_cases hall : (db.objects.filter (balFilter addresses)).all
      (fun r => (parseInt64 r.balance).isSome) = true
  · simp only [objectsQuery] at h
    rw [if_pos hall] at h
    exact ⟨hall, (Option.some_inj.mp h).symm⟩
  · simp only [objectsQuery] at h
    rw [if_neg hall] at h
    cases h

/-- C4: in every row of a table returned by `get_wallet_balances`,
`balance_raw` is the 64-bit integer parsed from the source balance string
(within the signed 64-bit range) and `balance_sui` is exactly
`balance_raw / 1e9` as a true division (modelled exactly in `ℚ`), not an
integer truncation. -/
theorem C4_balance_columns (db : Dataset) (addresses : Option (List String)) (limit : ℕ)
    (out : List BalOut) (r : BalOut) (h : get_wallet_balances db addresses limit = some out)
    (hr : r ∈ out) :
    parseInt64 r.balance = some r.balance_raw ∧
      (-(2 ^ 63) ≤ r.balance_raw ∧ r.balance_raw < 2 ^ 63) ∧
        r.balance_sui = (r.balance_raw : ℚ) / 1000000000 := by
  rw [get_wallet_balances] at h
  obtain ⟨l₀, hq, hmap⟩ := Option.map_eq_some'.mp h
  rw [← hmap] at hr
  obtain ⟨r₀, hr₀, hre⟩ := List.mem_map.mp hr
  obtain ⟨hall, hl⟩ := objectsQuery_eq hq
  have hmem : r₀ ∈ db.objects.filter (balFilter addresses) := by
    rw [hl] at hr₀
    exact (List.mem_insertionSort balDesc).mp (List.take_subset _ _ hr₀)
  have hsome : (parseInt64 r₀.balance).isSome = true :=
    List.all_eq_true.mp hall r₀ hmem
  obtain ⟨v, hv⟩ := Option.isSome_iff_exists.mp hsome
  subst hre
  refine ⟨?_, ?_, rfl⟩
  · show parseInt64 r₀.balance = some ((parseInt64 r₀.balance).getD 0)
    rw [hv]
    rfl
  · show -(2 ^ 63) ≤ (parseInt64 r₀.balance).getD 0 ∧ (parseInt64 r₀.balance).getD 0 < 2 ^ 63
    rw [hv]
    exact parseInt64_bounds hv

set_option maxRecDepth 4000 in
/-- C4, witness: the spec scenario — one matching row with raw balance
`"5000000000"` yields `balance_raw = 5000000000` and `balance_sui = 5`. -/
theorem C4_witness : (get_wallet_balances db2 (some ["0xabc"]) 50 = some [addBalanceCols bal0]) ∧
    (addBalanceCols bal0 ∈ [addBalanceCols bal0]) ∧
    (parseInt64 (addBalanceCols bal0).balance = some (addBalanceCols bal0).balance_raw ∧
      (-(2 ^ 63) ≤ (addBalanceCols bal0).balance_raw ∧
        (addBalanceCols bal0).balance_raw < 2 ^ 63) ∧
      (addBalanceCols bal0).balance_sui = ((addBalanceCols bal0).balance_raw : ℚ) / 1000000000) :=
  ⟨by with_unfolding_all rfl, List.mem_singleton_self _,
    C4_balance_columns db2 (some ["0xabc"]) 50 [addBalanceCols bal0] (addBalanceCols bal0)
      (by with_unfolding_all rfl) (List.mem_singleton_self _)⟩

/-- Shape of a successful summary query: every selected `gas_used` parses and
the result is one aggregate row per distinct day bucket, most recent first. -/
theorem summaryQuery_eq {db : Dataset} {cutoff : ℤ} {l₀ : List SummaryQRow}
    (h : summaryQuery db cutoff = some l₀) :
    (txWindow db cutoff).all (fun r => (parseInt64 r.gas_used).isSome) = true ∧
      l₀ = (List.insertionSort descZ
          (((txWindow db cutoff).map (fun r => dateOf r.timestamp_ms)).dedup)).map
        (summaryRowFor (txWindow db cutoff)) := by
  by_cases hall : (txWindow db cutoff).all (fun r => (parseInt64 r.gas_used).isSome) = true
  · simp only [summaryQuery] at h
    rw [if_pos hall] at h
    exact ⟨hall, (Option.some_inj.mp h).symm⟩
  · simp only [summaryQuery] at h
    rw [if_neg hall] at h
    cases h

/-- C5: in every row of a table returned by `get_transaction_summary` with a
positive `transaction_count`, `success_rate_pct` equals
`successful_txns / transaction_count * 100` (division modelled exactly in
`ℚ`). -/
theorem C5_success_rate (db : Dataset) (now days : ℚ) (out : List SummaryRow) (r : SummaryRow)
    (h : get_transaction_summary db now days = some out) (hr : r ∈ out)
    (hc : 0 < r.transaction_count) :
    r.success_rate_pct = some ((r.successful_txns : ℚ) / (r.transaction_count : ℚ) * 100) := by
  rw [get_transaction_summary] at h
  obtain ⟨l₀, hq, hmap⟩ := Option.map_eq_some'.mp h
  rw [← hmap] at hr
  obtain ⟨q, hq₀, hre⟩ := List.mem_map.mp hr
  subst hre
  have hne : ¬ q.transaction_count = 0 := Nat.pos_iff_ne_zero.mp hc
  show (addSuccessRate q).success_rate_pct = _
  simp only [addSuccessRate]
  rw [if_neg hne]

/-- C5, witness: the summary of a dataset with one successful transaction has
`success_rate_pct = 100 = 1 / 1 * 100`. -/
theorem C5_witness : (get_transaction_summary db1 500 0 = some [wsum]) ∧ (wsum ∈ [wsum]) ∧
    (0 < wsum.transaction_count) ∧
      (wsum.success_rate_pct
        = some ((wsum.successful_txns : ℚ) / (wsum.transaction_count : ℚ) * 100)) :=
  ⟨by with_unfolding_all rfl, List.mem_singleton_self _,
    of_decide_eq_true (by with_unfolding_all rfl),
    C5_success_rate db1 500 0 [wsum] wsum (by with_unfolding_all rfl)
      (List.mem_singleton_self _) (of_decide_eq_true (by with_unfolding_all rfl))⟩

/-- C6: the success-rate division is unguarded — on a row with
`transaction_count = 0` it yields the non-numeric `NaN` marker rather than a
handled error — and the call still returns a table: against a dataset with
zero transactions in the window, `get_transaction_summary` returns the empty
table rather than crashing.  (A returned row with `transaction_count = 0`
cannot actually arise, since `GROUP BY` only forms non-empty buckets.) -/
theorem C6_zero_division_unguarded (r : SummaryQRow) (h : r.transaction_count = 0) :
    (addSuccessRate r).success_rate_pct = none ∧
      get_transaction_summary dbEmpty 1700000000 1 = some [] :=
  ⟨by simp [addSuccessRate, h], by with_unfolding_all rfl⟩

/-- C6, witness: the all-zero aggregate row. -/
theorem C6_witness : ((⟨0, 0, 0, 0, 0, 0⟩ : SummaryQRow).transaction_count = 0) ∧
    ((addSuccessRate ⟨0, 0, 0, 0, 0, 0⟩).success_rate_pct = none ∧
      get_transaction_summary dbEmpty 1700000000 1 = some []) :=
  ⟨rfl, C6_zero_division_unguarded ⟨0, 0, 0, 0, 0, 0⟩ rfl⟩

/-- Two pointwise-exclusive predicates together count at most the length. -/
theorem countP_disjoint_le {α : Type} (p q : α → Bool)
    (hpq : ∀ x, ¬(p x = true ∧ q x = true)) :
    ∀ l : List α, l.countP p + l.countP q ≤ l.length := by
  intro l
  induction l with
  | nil => simp
  | cons a t ih =>
    have := hpq a
    rw [List.countP_cons, List.countP_cons, List.length_cons]
    cases hp : p a <;> cases hq : q a <;> simp [hp, hq] at this ⊢ <;> omega

/-- C7: every table returned by `get_recent_transactions` has at most `limit`
rows, contains only rows with `timestamp_ms` at or after the computed cutoff,
and is ordered newest-first (nonincreasing in `timestamp_ms`). -/
theorem C7_window_limit_order (db : Dataset) (now days : ℚ) (limit : ℕ) (r : TxOut)
    (hr : r ∈ get_recent_transactions db now days limit) :
    (get_recent_transactions db now days limit).length ≤ limit ∧
      cutoff_ms now days ≤ r.timestamp_ms ∧
        ((get_recent_transactions db now days limit).map
          (fun x => x.timestamp_ms)).Sorted (fun a b => b ≤ a) := by
  refine ⟨?_, ?_, ?_⟩
  · rw [get_recent_transactions, List.length_map, txQuery]
    exact List.length_take_le _ _
  · obtain ⟨r₀, hr₀, hre⟩ := List.mem_map.mp hr
    subst hre
    have hmem : r₀ ∈ txWindow db (cutoff_ms now days) :=
      (List.mem_insertionSort tsDesc).mp (List.take_subset _ _ hr₀)
    exact of_decide_eq_true (List.mem_filter.mp hmem).2
  · have hs : List.Pairwise tsDesc (txQuery db (cutoff_ms now days) limit) :=
      (List.sorted_insertionSort tsDesc (txWindow db (cutoff_ms now days))).sublist
        (List.take_sublist _ _)
    rw [get_recent_transactions, List.map_map]
    exact List.pairwise_map.mpr hs

set_option maxRecDepth 2000 in
/-- C7, witness: the one-transaction dataset at clock reading 500 s. -/
theorem C7_witness : (wtx ∈ get_recent_transactions db1 500 0 10) ∧
    ((get_recent_transactions db1 500 0 10).length ≤ 10 ∧
      cutoff_ms 500 0 ≤ wtx.timestamp_ms ∧
        ((get_recent_transactions db1 500 0 10).map
          (fun x => x.timestamp_ms)).Sorted (fun a b => b ≤ a)) := by
  have hmem : wtx ∈ get_recent_transactions db1 500 0 10 := by
    rw [show get_recent_transactions db1 500 0 10 = [wtx] by with_unfolding_all rfl]
    exact List.mem_singleton_self _
  exact ⟨hmem, C7_window_limit_order db1 500 0 10 wtx hmem⟩

/-- C8: in every row of a table returned by `get_transaction_summary`,
`successful_txns + failed_txns ≤ transaction_count` — the two `CASE` sums
count disjoint subsets of the bucket, and a `NULL` success flag counts
toward neither. -/
theorem C8_success_failed_bound (db : Dataset) (now days : ℚ) (out : List SummaryRow)
    (r : SummaryRow) (h : get_transaction_summary db now days = some out) (hr : r ∈ out) :
    r.successful_txns + r.failed_txns ≤ r.transaction_count := by
  rw [get_transaction_summary] at h
  obtain ⟨l₀, hq, hmap⟩ := Option.map_eq_some'.mp h
  rw [← hmap] at hr
  obtain ⟨q, hq₀, hre⟩ := List.mem_map.mp hr
  subst hre
  obtain ⟨hall, hl⟩ := summaryQuery_eq hq
  rw [hl] at hq₀
  obtain ⟨d, hd₀, hqe⟩ := List.mem_map.mp hq₀
  subst hqe
  exact countP_disjoint_le _ _
    (by
      intro x hx
      obtain ⟨h1, h2⟩ := hx
      rw [decide_eq_true_eq] at h1 h2
      rw [h1] at h2
      cases h2)
    _

/-- C8, witness: the one-transaction summary satisfies `1 + 0 ≤ 1`. -/
theorem C8_witness : (get_transaction_summary db1 500 0 = some [wsum]) ∧ (wsum ∈ [wsum]) ∧
    (wsum.successful_txns + wsum.failed_txns ≤ wsum.transaction_count) :=
  ⟨by with_unfolding_all rfl, List.mem_singleton_self _,
    C8_success_failed_bound db1 500 0 [wsum] wsum (by with_unfolding_all rfl)
      (List.mem_singleton_self _)⟩

/-- C9: the transform of `get_recent_transactions` only appends the decoded
timestamp column — stripping it recovers the query result row-for-row (so no
row filtering, sorting, or deduplication happens after materialization and
the raw `timestamp_ms` column is retained), and the decoded value carries the
same physical millisecond count as the raw column. -/
theorem C9_transform_frame (db : Dataset) (now days : ℚ) (limit : ℕ) (r : TxOut)
    (hr : r ∈ get_recent_transactions db now days limit) :
    (get_recent_transactions db now days limit).map TxOut.toTxRow
        = txQuery db (cutoff_ms now days) limit ∧
      r.timestamp = r.timestamp_ms := by
  constructor
  · rw [get_recent_transactions, List.map_map,
      show (TxOut.toTxRow ∘ addTimestamp) = id from rfl, List.map_id]
  · obtain ⟨r₀, _, hre⟩ := List.mem_map.mp hr
    subst hre
    rfl

set_option maxRecDepth 2000 in
/-- C9, witness: the one-transaction dataset at clock reading 500 s. -/
theorem C9_witness : (wtx ∈ get_recent_transactions db1 500 0 10) ∧
    ((get_recent_transactions db1 500 0 10).map TxOut.toTxRow
        = txQuery db1 (cutoff_ms 500 0) 10 ∧
      wtx.timestamp = wtx.timestamp_ms) := by
  have hmem : wtx ∈ get_recent_transactions db1 500 0 10 := by
    rw [show get_recent_transactions db1 500 0 10 = [wtx] by with_unfolding_all rfl]
    exact List.mem_singleton_self _
  exact ⟨hmem, C9_transform_frame db1 500 0 10 wtx hmem⟩

/-- C10: passing the empty address list behaves identically to omitting the
argument — Python `if addresses:` is false for `[]`, so the call falls back
to the fixed native-coin query (top `limit` wallets) rather than an empty
table. -/
theorem C10_empty_list_like_none (db : Dataset) (limit : ℕ) :
    get_wallet_balances db (some []) limit = get_wallet_balances db none limit := rfl

end Suiscan
